import Mathlib

/-!
# Verification of the dual-source beer-catalog store

A shallow embedding, in Lean 4, of the reactive state/store layer of the
beer-catalog application: the `BeerStore` (both the switchMap variant and the
async/await variant found in the repository), the `FavoritesService`, and the
`BeerApiService` retry policy.

Conventions of the embedding:
* JavaScript strings are modelled as `List Char`; `toLowerCase`, `trim`,
  `includes` and relational comparison are modelled by explicit executable
  functions below.
* JavaScript numbers appearing as ABV values are modelled as `ℚ` (exact
  arithmetic; the code only ever compares them).
* `signal` state is modelled as explicit record state; a store action becomes
  a function `State → State` (paired with the request parameters it issues,
  when it can issue one).
* The RxJS `switchMap` request pipeline is modelled by a sequence-numbered
  request guard: a settle event is applied only when its request id is still
  the current one, which reproduces cancel-on-supersede semantics.
-/

namespace BeerCatalog

/-! ## JavaScript string primitives -/

/-- ASCII lower-casing of one character, as performed by
`String.prototype.toLowerCase` on the ASCII range. -/
def jsToLowerChar (c : Char) : Char :=
  match c with
  | 'A' => 'a' | 'B' => 'b' | 'C' => 'c' | 'D' => 'd' | 'E' => 'e' | 'F' => 'f'
  | 'G' => 'g' | 'H' => 'h' | 'I' => 'i' | 'J' => 'j' | 'K' => 'k' | 'L' => 'l'
  | 'M' => 'm' | 'N' => 'n' | 'O' => 'o' | 'P' => 'p' | 'Q' => 'q' | 'R' => 'r'
  | 'S' => 's' | 'T' => 't' | 'U' => 'u' | 'V' => 'v' | 'W' => 'w' | 'X' => 'x'
  | 'Y' => 'y' | 'Z' => 'z'
  | other => other

/-- `toLowerCase` on a whole string. -/
def toLowerStr (s : List Char) : List Char := s.map jsToLowerChar

/-- The whitespace characters stripped by `String.prototype.trim`
(restricted to the usual ASCII whitespace). -/
def isWsChar (c : Char) : Bool := c = ' ' || c = '\t' || c = '\n' || c = '\r'

/-- `String.prototype.trim`: drop whitespace from both ends. -/
def trimStr (s : List Char) : List Char :=
  ((s.dropWhile isWsChar).reverse.dropWhile isWsChar).reverse

/-- `String.prototype.includes`: contiguous substring containment. -/
def includesStr (hay needle : List Char) : Bool := decide (needle <:+: hay)

/-- Lower-casing never turns whitespace into non-whitespace or conversely. -/
theorem isWsChar_jsToLowerChar (c : Char) : isWsChar (jsToLowerChar c) = isWsChar c := by
  unfold jsToLowerChar
  split <;> rfl

/-- `toLowerCase` and `trim` commute, hence testing emptiness of the trimmed
string agrees with testing emptiness of the trimmed lower-cased string. -/
theorem trimStr_toLowerStr (s : List Char) :
    trimStr (toLowerStr s) = toLowerStr (trimStr s) := by
  have hws : isWsChar ∘ jsToLowerChar = isWsChar := by
    funext c; exact isWsChar_jsToLowerChar c
  unfold trimStr toLowerStr
  rw [List.dropWhile_map, hws, ← List.map_reverse, List.dropWhile_map, hws, ← List.map_reverse]

theorem trimStr_toLowerStr_eq_nil_iff (s : List Char) :
    trimStr (toLowerStr s) = [] ↔ trimStr s = [] := by
  rw [trimStr_toLowerStr, toLowerStr]
  exact List.map_eq_nil_iff

/-! ## Data model -/

/-- The catalog item; only the fields the store interprets are modelled
(`id`, `name` and the nullable `abv`). -/
structure Beer where
  id : Nat
  name : List Char
  abv : Option ℚ
  deriving DecidableEq

/-- The ABV filter range; `none` at either end means the bound is not set. -/
structure AbvRange where
  min : Option ℚ
  max : Option ℚ
  deriving DecidableEq

inductive FilterMode where
  | all
  | favorites
  deriving DecidableEq

inductive SortBy where
  | recommended
  | name
  | abv
  deriving DecidableEq

inductive SortDirection where
  | asc
  | desc
  deriving DecidableEq

structure SortConfig where
  by_ : SortBy
  direction : SortDirection
  deriving DecidableEq

/-- The query parameters built by `loadBeers` immediately before a request. -/
structure BeerSearchParams where
  page : Int
  per_page : Int
  beer_name : Option (List Char)
  abv_gt : Option ℚ
  abv_lt : Option ℚ
  deriving DecidableEq

/-! ## Filter stage (`BeerStore.filteredBeers`, identical in both variants) -/

/-- The name-filter stage: case-insensitive substring match against the
display name, skipped when the trimmed lower-cased search term is empty. -/
def nameFilterStage (searchTerm : List Char) (source : List Beer) : List Beer :=
  let search := trimStr (toLowerStr searchTerm)
  if search = [] then source
  else source.filter fun beer => includesStr (toLowerStr beer.name) search

/-- The minimum-ABV filter stage (`abv !== null && abv !== undefined && abv >= min`). -/
def minAbvStage (mn : Option ℚ) (l : List Beer) : List Beer :=
  match mn with
  | none => l
  | some m => l.filter fun beer =>
      match beer.abv with
      | some abv => decide (m ≤ abv)
      | none => false

/-- The maximum-ABV filter stage (`abv !== null && abv !== undefined && abv <= max`). -/
def maxAbvStage (mx : Option ℚ) (l : List Beer) : List Beer :=
  match mx with
  | none => l
  | some m => l.filter fun beer =>
      match beer.abv with
      | some abv => decide (abv ≤ m)
      | none => false

/-- The filter stage of the derived pipeline, exactly as in `filteredBeers`
(both store variants contain the identical code): name filter, then min-ABV
filter, then max-ABV filter, applied in sequence. -/
def filterBeers (searchTerm : List Char) (range : AbvRange) (source : List Beer) : List Beer :=
  maxAbvStage range.max (minAbvStage range.min (nameFilterStage searchTerm source))

theorem nameFilterStage_sublist (t : List Char) (s : List Beer) :
    (nameFilterStage t s).Sublist s := by
  unfold nameFilterStage
  dsimp only
  split
  · exact List.Sublist.refl _
  · exact List.filter_sublist _

theorem minAbvStage_sublist (mn : Option ℚ) (l : List Beer) :
    (minAbvStage mn l).Sublist l := by
  cases mn
  · exact List.Sublist.refl _
  · exact List.filter_sublist _

theorem maxAbvStage_sublist (mx : Option ℚ) (l : List Beer) :
    (maxAbvStage mx l).Sublist l := by
  cases mx
  · exact List.Sublist.refl _
  · exact List.filter_sublist _

theorem mem_nameFilterStage {t : List Char} {s : List Beer} {beer : Beer} :
    beer ∈ nameFilterStage t s ↔
      beer ∈ s ∧ (trimStr (toLowerStr t) = [] ∨
        includesStr (toLowerStr beer.name) (trimStr (toLowerStr t)) = true) := by
  unfold nameFilterStage
  by_cases h : trimStr (toLowerStr t) = [] <;> simp [h, List.mem_filter]

theorem mem_minAbvStage {mn : Option ℚ} {l : List Beer} {beer : Beer} :
    beer ∈ minAbvStage mn l ↔
      beer ∈ l ∧ ∀ m, mn = some m → ∃ abv, beer.abv = some abv ∧ m ≤ abv := by
  cases mn <;> rcases habv : beer.abv with _ | q <;>
    simp [minAbvStage, List.mem_filter, habv]

theorem mem_maxAbvStage {mx : Option ℚ} {l : List Beer} {beer : Beer} :
    beer ∈ maxAbvStage mx l ↔
      beer ∈ l ∧ ∀ m, mx = some m → ∃ abv, beer.abv = some abv ∧ abv ≤ m := by
  cases mx <;> rcases habv : beer.abv with _ | q <;>
    simp [maxAbvStage, List.mem_filter, habv]

/-- C3: the filter stage keeps exactly the items whose display name
case-insensitively contains the trimmed search text (an empty trimmed search
imposes no name condition) and whose ABV satisfies every set bound
inclusively; an item with a null ABV is excluded whenever at least one bound
is set; the two filters compose by logical AND, and the result is a
subsequence of the source (order preserved). -/
theorem c3_filter_stage (searchTerm : List Char) (range : AbvRange) (source : List Beer) :
    List.Sublist (filterBeers searchTerm range source) source
    ∧ (∀ beer : Beer, beer ∈ filterBeers searchTerm range source ↔
        beer ∈ source
        ∧ (trimStr (toLowerStr searchTerm) = [] ∨
            includesStr (toLowerStr beer.name) (trimStr (toLowerStr searchTerm)) = true)
        ∧ (∀ m, range.min = some m → ∃ abv, beer.abv = some abv ∧ m ≤ abv)
        ∧ (∀ mx, range.max = some mx → ∃ abv, beer.abv = some abv ∧ abv ≤ mx))
    ∧ ((range.min ≠ none ∨ range.max ≠ none) →
        ∀ beer ∈ filterBeers searchTerm range source, beer.abv ≠ none) := by
  refine ⟨?_, ?_, ?_⟩
  · exact ((maxAbvStage_sublist _ _).trans (minAbvStage_sublist _ _)).trans
      (nameFilterStage_sublist _ _)
  · intro beer
    rw [filterBeers, mem_maxAbvStage, mem_minAbvStage, mem_nameFilterStage]
    tauto
  · intro hbound beer hmem
    rw [filterBeers, mem_maxAbvStage, mem_minAbvStage, mem_nameFilterStage] at hmem
    obtain ⟨⟨⟨-, -⟩, hmin⟩, hmax⟩ := hmem
    rcases hbound with hb | hb
    · obtain ⟨m, hm⟩ := Option.ne_none_iff_exists'.mp hb
      obtain ⟨abv, habv, -⟩ := hmin m hm
      simp [habv]
    · obtain ⟨m, hm⟩ := Option.ne_none_iff_exists'.mp hb
      obtain ⟨abv, habv, -⟩ := hmax m hm
      simp [habv]

/-! ## Sort stage (`BeerStore.sortedBeers`)

The JavaScript comparator picks `valueA`/`valueB` (a lower-cased name, an ABV
number, or null), sends nulls to the end before the direction is applied, and
otherwise compares with `<` / `>`, negating the result for `desc`.
`Array.prototype.sort` is a stable sort driven by that comparator; we model it
with `List.insertionSort` over the non-strict relation `comparator ≤ 0`,
which is the stable sort for this comparator. -/

/-- A comparator operand: a string key, a numeric key, or null/undefined. -/
inductive SortValue where
  | str (s : List Char)
  | num (q : ℚ)
  | null
  deriving DecidableEq

/-- The combined result of the JavaScript `<` / `>` comparison on two string
values (lexicographic by character). -/
def lexCmp : List Char → List Char → Int
  | [], [] => 0
  | [], _ :: _ => -1
  | _ :: _, [] => 1
  | a :: as, b :: bs => if a < b then -1 else if b < a then 1 else lexCmp as bs

/-- The combined result of the JavaScript `<` / `>` comparison on two numbers. -/
def numCmp (a b : ℚ) : Int :=
  if a < b then -1 else if b < a then 1 else 0

/-- The comparison performed after the null checks (`valueA < valueB`,
`valueA > valueB`); comparing a string with a number leaves the result 0,
as in JavaScript. -/
def compareRaw : SortValue → SortValue → Int
  | .str a, .str b => lexCmp a b
  | .num a, .num b => numCmp a b
  | _, _ => 0

/-- The sort key selected by the comparator's `switch` statement; the
`default` branch (hit by `recommended` in the async/await variant) compares
lower-cased names. -/
def sortKey (k : SortBy) (beer : Beer) : SortValue :=
  match k with
  | .name => .str (toLowerStr beer.name)
  | .abv =>
      match beer.abv with
      | some q => .num q
      | none => .null
  | .recommended => .str (toLowerStr beer.name)

/-- The comparator body on the two selected values: null/undefined keys sort
to the end regardless of direction; otherwise the raw comparison, negated for
`desc`. -/
def beerCompareVals (d : SortDirection) (valueA valueB : SortValue) : Int :=
  match valueA, valueB with
  | .null, .null => 0
  | .null, _ => 1
  | _, .null => -1
  | va, vb =>
      match d with
      | .asc => compareRaw va vb
      | .desc => - compareRaw va vb

/-- The full JavaScript comparator passed to `Array.prototype.sort`. -/
def beerCompare (config : SortConfig) (a b : Beer) : Int :=
  beerCompareVals config.direction (sortKey config.by_ a) (sortKey config.by_ b)

/-- The non-strict order induced by the comparator; `Array.prototype.sort`
(stable) puts `a` no later than `b` exactly when the comparator is ≤ 0. -/
def sortLe (config : SortConfig) (a b : Beer) : Prop :=
  beerCompare config a b ≤ 0

instance sortLe.decidableRel (config : SortConfig) : DecidableRel (sortLe config) :=
  fun a b => inferInstanceAs (Decidable (beerCompare config a b ≤ 0))

/-- `sortedBeers` of the switchMap variant: `recommended` returns the input
unchanged (natural order), otherwise the comparator-driven stable sort. -/
def sortedBeersV1 (config : SortConfig) (filtered : List Beer) : List Beer :=
  if config.by_ = SortBy.recommended then filtered
  else List.insertionSort (sortLe config) filtered

/-- `sortedBeers` of the async/await variant: always sorts; `recommended`
falls into the comparator's `default` branch (lower-cased name compare). -/
def sortedBeersV2 (config : SortConfig) (filtered : List Beer) : List Beer :=
  List.insertionSort (sortLe config) filtered

theorem lexCmp_antisymm : ∀ a b : List Char, lexCmp b a = - lexCmp a b
  | [], [] => by simp [lexCmp]
  | [], _ :: _ => by simp [lexCmp]
  | _ :: _, [] => by simp [lexCmp]
  | a :: as, b :: bs => by
    unfold lexCmp
    split_ifs with h1 h2 <;>
      first
        | exact absurd ‹a < b› (lt_asymm ‹b < a›)
        | exact lexCmp_antisymm as bs
        | norm_num

theorem numCmp_antisymm (a b : ℚ) : numCmp b a = - numCmp a b := by
  unfold numCmp
  split_ifs with h1 h2 <;>
    first
      | exact absurd ‹a < b› (lt_asymm ‹b < a›)
      | norm_num

theorem numCmp_le_zero {a b : ℚ} : numCmp a b ≤ 0 ↔ a ≤ b := by
  unfold numCmp
  rcases lt_trichotomy a b with h | h | h
  · rw [if_pos h]
    exact iff_of_true (by norm_num) h.le
  · rw [if_neg (h ▸ lt_irrefl a), if_neg (h ▸ lt_irrefl a)]
    exact iff_of_true le_rfl h.le
  · rw [if_neg (lt_asymm h), if_pos h]
    exact iff_of_false (by norm_num) (not_le.mpr h)

theorem neg_numCmp_le_zero {a b : ℚ} : - numCmp a b ≤ 0 ↔ b ≤ a := by
  rw [← numCmp_antisymm]
  exact numCmp_le_zero

theorem compareRaw_antisymm (va vb : SortValue) : compareRaw vb va = - compareRaw va vb := by
  cases va <;> cases vb <;>
    first
      | exact lexCmp_antisymm _ _
      | exact numCmp_antisymm _ _
      | norm_num [compareRaw]

theorem beerCompareVals_antisymm (d : SortDirection) (va vb : SortValue) :
    beerCompareVals d vb va = - beerCompareVals d va vb := by
  cases va <;> cases vb <;> cases d <;>
    dsimp only [beerCompareVals] <;>
    first
      | exact compareRaw_antisymm _ _
      | (rw [compareRaw_antisymm]; try ring)
      | norm_num

theorem beerCompare_antisymm (config : SortConfig) (a b : Beer) :
    beerCompare config b a = - beerCompare config a b :=
  beerCompareVals_antisymm config.direction (sortKey config.by_ a) (sortKey config.by_ b)

theorem sortLe_total (config : SortConfig) (a b : Beer) :
    sortLe config a b ∨ sortLe config b a := by
  unfold sortLe
  rw [beerCompare_antisymm]
  omega

/-- The comparator relation for the `abv` key is transitive (its keys are
only numbers and nulls, with null greatest in both directions). -/
theorem sortLe_abv_trans (dir : SortDirection) (a b c : Beer)
    (hab : sortLe ⟨SortBy.abv, dir⟩ a b) (hbc : sortLe ⟨SortBy.abv, dir⟩ b c) :
    sortLe ⟨SortBy.abv, dir⟩ a c := by
  unfold sortLe beerCompare at hab hbc ⊢
  rcases ha : a.abv with _ | qa <;> rcases hb : b.abv with _ | qb <;>
    rcases hc : c.abv with _ | qc <;>
    simp only [sortKey, ha, hb, hc] at hab hbc ⊢ <;>
    cases dir <;>
    simp only [beerCompareVals, compareRaw] at hab hbc ⊢ <;>
    first
      | omega
      | (norm_num at hab; done)
      | (norm_num at hbc; done)
      | (simp only [numCmp_le_zero, neg_numCmp_le_zero] at hab hbc ⊢; linarith)

/-! ### Stability of the comparator-driven sort

Equivalence classes of the comparator are preserved verbatim by
`List.insertionSort`: filtering the sorted output by any one key value gives
the same list as filtering the input. -/

theorem filter_orderedInsert_of_neg {α : Type _} (r : α → α → Prop) [DecidableRel r]
    (p : α → Bool) (a : α) (ha : p a = false) :
    ∀ l : List α, (List.orderedInsert r a l).filter p = l.filter p
  | [] => by simp [List.orderedInsert, ha]
  | b :: l => by
    by_cases hr : r a b
    · simp [List.orderedInsert, hr, ha]
    · simp only [List.orderedInsert, hr, if_neg, ite_false]
      cases hpb : p b <;>
        simp [List.filter_cons, hpb, filter_orderedInsert_of_neg r p a ha l]

theorem filter_orderedInsert_of_pos {α : Type _} (r : α → α → Prop) [DecidableRel r]
    (p : α → Bool) (a : α) (ha : p a = true) (hco : ∀ b, p b = true → r a b) :
    ∀ l : List α, (List.orderedInsert r a l).filter p = a :: l.filter p
  | [] => by simp [List.orderedInsert, ha]
  | b :: l => by
    by_cases hr : r a b
    · simp [List.orderedInsert, hr, ha]
    · have hpb : p b = false := by
        cases hpb : p b
        · rfl
        · exact absurd (hco b hpb) hr
      simp only [List.orderedInsert, hr, if_neg, ite_false]
      simp [List.filter_cons, hpb, filter_orderedInsert_of_pos r p a ha hco l]

theorem filter_insertionSort {α : Type _} (r : α → α → Prop) [DecidableRel r]
    (p : α → Bool) (hco : ∀ a b, p a = true → p b = true → r a b) :
    ∀ l : List α, (List.insertionSort r l).filter p = l.filter p
  | [] => rfl
  | a :: l => by
    cases hpa : p a
    · rw [List.insertionSort, filter_orderedInsert_of_neg r p a hpa,
        filter_insertionSort r p hco l]
      simp [List.filter_cons, hpa]
    · rw [List.insertionSort, filter_orderedInsert_of_pos r p a hpa (fun b hb => hco a b hpa hb),
        filter_insertionSort r p hco l]
      simp [List.filter_cons, hpa]

/-- Comparator result on two beers that have the same `abv` key. -/
theorem beerCompare_abv_eq_zero (dir : SortDirection) {a b : Beer} (h : a.abv = b.abv) :
    beerCompare ⟨SortBy.abv, dir⟩ a b = 0 := by
  unfold beerCompare
  rcases hb : b.abv with _ | q <;>
    (have ha : a.abv = _ := h.trans hb) <;>
    simp only [sortKey, ha, hb] <;>
    cases dir <;>
    simp [beerCompareVals, compareRaw, numCmp, lt_irrefl]

/-- A null `abv` key is never strictly below any key: the relation forces
everything after a null to be null as well. -/
theorem sortLe_abv_null_right (dir : SortDirection) {a b : Beer}
    (h : sortLe ⟨SortBy.abv, dir⟩ a b) (hna : a.abv = none) : b.abv = none := by
  rcases hb : b.abv with _ | q
  · rfl
  · exfalso
    unfold sortLe beerCompare at h
    simp [sortKey, hna, hb, beerCompareVals] at h

/-- C4: sorting with key `abv` places every null-ABV item after every
non-null-ABV item in both directions; the output is a permutation of the
input; the sort is stable (each `abv` equivalence class appears in input
order); `desc` negates only the comparison of non-null values and leaves the
null placement unchanged; and the async/await variant sorts identically for
this key. -/
theorem c4_abv_sort_nulls_last_stable (dir : SortDirection) (l : List Beer) :
    List.Perm (sortedBeersV1 ⟨SortBy.abv, dir⟩ l) l
    ∧ List.Pairwise (fun a b : Beer => a.abv = none → b.abv = none)
        (sortedBeersV1 ⟨SortBy.abv, dir⟩ l)
    ∧ (∀ v : Option ℚ, (sortedBeersV1 ⟨SortBy.abv, dir⟩ l).filter (fun beer => beer.abv == v)
        = l.filter (fun beer => beer.abv == v))
    ∧ (∀ a b : Beer, a.abv ≠ none → b.abv ≠ none →
        beerCompare ⟨SortBy.abv, SortDirection.desc⟩ a b
          = - beerCompare ⟨SortBy.abv, SortDirection.asc⟩ a b)
    ∧ (∀ a b : Beer, a.abv = none ∨ b.abv = none →
        beerCompare ⟨SortBy.abv, SortDirection.desc⟩ a b
          = beerCompare ⟨SortBy.abv, SortDirection.asc⟩ a b)
    ∧ sortedBeersV2 ⟨SortBy.abv, dir⟩ l = sortedBeersV1 ⟨SortBy.abv, dir⟩ l := by
  have hnotrec : (⟨SortBy.abv, dir⟩ : SortConfig).by_ ≠ SortBy.recommended := by
    intro h
    exact absurd h (by simp)
  refine ⟨?_, ?_, ?_, ?_, ?_, ?_⟩
  · rw [sortedBeersV1, if_neg hnotrec]
    exact List.perm_insertionSort _ l
  · rw [sortedBeersV1, if_neg hnotrec]
    haveI : IsTotal Beer (sortLe ⟨SortBy.abv, dir⟩) := ⟨sortLe_total _⟩
    haveI : IsTrans Beer (sortLe ⟨SortBy.abv, dir⟩) := ⟨sortLe_abv_trans dir⟩
    exact (List.sorted_insertionSort _ l).imp fun hr hna => sortLe_abv_null_right dir hr hna
  · intro v
    rw [sortedBeersV1, if_neg hnotrec]
    refine filter_insertionSort _ _ (fun a b hpa hpb => ?_) l
    have hav : a.abv = v := by simpa using hpa
    have hbv : b.abv = v := by simpa using hpb
    unfold sortLe
    rw [beerCompare_abv_eq_zero dir (hav.trans hbv.symm)]
  · intro a b hna hnb
    obtain ⟨qa, hqa⟩ := Option.ne_none_iff_exists'.mp hna
    obtain ⟨qb, hqb⟩ := Option.ne_none_iff_exists'.mp hnb
    unfold beerCompare
    simp [sortKey, hqa, hqb, beerCompareVals]
  · intro a b hn
    unfold beerCompare
    rcases hn with hn | hn
    · rcases hb : b.abv with _ | q <;> simp [sortKey, hn, hb, beerCompareVals]
    · rcases ha : a.abv with _ | q <;> simp [sortKey, hn, ha, beerCompareVals]
  · rw [sortedBeersV1, if_neg hnotrec, sortedBeersV2]

/-- C4 witness: the theorem applied to a concrete direction and item list. -/
theorem c4_abv_sort_witness :
    List.Perm
      (sortedBeersV1 ⟨SortBy.abv, SortDirection.desc⟩
        [⟨1, "Buzz".toList, some 4.5⟩, ⟨2, "Mystery".toList, none⟩,
         ⟨3, "Punk IPA".toList, some 5.6⟩])
      [⟨1, "Buzz".toList, some 4.5⟩, ⟨2, "Mystery".toList, none⟩,
       ⟨3, "Punk IPA".toList, some 5.6⟩] :=
  (c4_abv_sort_nulls_last_stable SortDirection.desc
    [⟨1, "Buzz".toList, some 4.5⟩, ⟨2, "Mystery".toList, none⟩,
     ⟨3, "Punk IPA".toList, some 5.6⟩]).1

/-! ## Store state, derived pipeline and empty-state classifier -/

/-- The store's signals (both variants declare the same state shape). -/
structure StoreState where
  beers : List Beer
  loading : Bool
  error : Option String
  currentPage : Int
  filterMode : FilterMode
  searchTerm : List Char
  abvRange : AbvRange
  sortConfig : SortConfig
  deriving DecidableEq

/-- `sourceBeers`: mode selection only, no filtering or sorting. -/
def sourceBeers (s : StoreState) (favorites : List Beer) : List Beer :=
  match s.filterMode with
  | .all => s.beers
  | .favorites => favorites

/-- `filteredBeers` over the full state (identical code in both variants). -/
def filteredBeersOf (s : StoreState) (favorites : List Beer) : List Beer :=
  filterBeers s.searchTerm s.abvRange (sourceBeers s favorites)

/-- `displayedBeers` of the switchMap variant. -/
def displayedBeersV1 (s : StoreState) (favorites : List Beer) : List Beer :=
  sortedBeersV1 s.sortConfig (filteredBeersOf s favorites)

/-- `displayedBeers` of the async/await variant. -/
def displayedBeersV2 (s : StoreState) (favorites : List Beer) : List Beer :=
  sortedBeersV2 s.sortConfig (filteredBeersOf s favorites)

/-- JavaScript truthiness of the `error` signal (`if (this.error())`):
a string is truthy exactly when it is non-empty. -/
def errorTruthy (e : Option String) : Bool :=
  match e with
  | some msg => decide (msg ≠ "")
  | none => false

/-- `hasSearch || hasAbvFilter` as computed by `emptyMessage`. -/
def hasAnyFilter (s : StoreState) : Bool :=
  decide (0 < (trimStr s.searchTerm).length)
    || s.abvRange.min.isSome || s.abvRange.max.isSome

def msgNoFavoritesYet : String := "No favorites yet. Start adding beers to your favorites!"

def msgNoFavoritesMatch : String :=
  "No favorites match your filters. Try adjusting your search or ABV range."

def msgNoFavoritesToDisplay : String := "No favorites to display."

def msgFailedToLoad : String := "Failed to load beers. Please try again."

def msgNoBeersMatch : String :=
  "No beers match your filters. Try adjusting your search or ABV range."

def msgNoBeersAvailable : String := "No beers available."

/-- The `emptyMessage` computed signal (identical code in both variants). -/
def emptyMessage (s : StoreState) (favorites : List Beer) : String :=
  match s.filterMode with
  | .favorites =>
      if favorites.length = 0 then msgNoFavoritesYet
      else if hasAnyFilter s then msgNoFavoritesMatch
      else msgNoFavoritesToDisplay
  | .all =>
      if errorTruthy s.error then msgFailedToLoad
      else if hasAnyFilter s then msgNoBeersMatch
      else msgNoBeersAvailable

/-- With no search text (after trimming) and no ABV bound, the filter stage
is the identity. -/
theorem filterBeers_no_filter {s : StoreState} (h : hasAnyFilter s = false)
    (source : List Beer) : filterBeers s.searchTerm s.abvRange source = source := by
  have hsearch : trimStr s.searchTerm = [] := by
    simp only [hasAnyFilter, Bool.or_eq_false_iff, decide_eq_false_iff_not, not_lt] at h
    exact List.length_eq_zero.mp (Nat.le_zero.mp h.1.1)
  have hmin : s.abvRange.min = none := by
    simp only [hasAnyFilter, Bool.or_eq_false_iff] at h
    exact Option.not_isSome_iff_eq_none.mp (by simp [h.1.2])
  have hmax : s.abvRange.max = none := by
    simp only [hasAnyFilter, Bool.or_eq_false_iff] at h
    exact Option.not_isSome_iff_eq_none.mp (by simp [h.2])
  have hlow : trimStr (toLowerStr s.searchTerm) = [] :=
    (trimStr_toLowerStr_eq_nil_iff _).mpr hsearch
  unfold filterBeers maxAbvStage minAbvStage nameFilterStage
  rw [hmin, hmax]
  simp [hlow]

/-- The displayed list is empty exactly when the filtered list is empty
(sorting preserves length). -/
theorem displayedBeersV1_eq_nil_iff {s : StoreState} {favorites : List Beer} :
    displayedBeersV1 s favorites = [] ↔ filteredBeersOf s favorites = [] := by
  unfold displayedBeersV1 sortedBeersV1
  split
  · exact Iff.rfl
  · constructor
    · intro h
      have := List.length_insertionSort (sortLe s.sortConfig) (filteredBeersOf s favorites)
      rw [h] at this
      exact List.length_eq_zero.mp this.symm
    · intro h
      rw [h]
      rfl

/-- C5: when the displayed collection is empty, `emptyMessage` realizes the
five-state classification in its stated precedence: (1) favorites mode with
no favorites; (2) favorites mode, favorites present, filtered result empty;
(3) remote mode with an error set, taking precedence over filter emptiness;
(4) remote mode, no error, a filter set; (5) otherwise the generic message. -/
theorem c5_empty_state_classifier (s : StoreState) (favorites : List Beer)
    (hempty : displayedBeersV1 s favorites = []) :
    (s.filterMode = FilterMode.favorites → favorites = [] →
        emptyMessage s favorites = msgNoFavoritesYet)
    ∧ (s.filterMode = FilterMode.favorites → favorites ≠ [] →
        emptyMessage s favorites = msgNoFavoritesMatch)
    ∧ (s.filterMode = FilterMode.all → ∀ msg, s.error = some msg → msg ≠ "" →
        emptyMessage s favorites = msgFailedToLoad)
    ∧ (s.filterMode = FilterMode.all → errorTruthy s.error = false → hasAnyFilter s = true →
        emptyMessage s favorites = msgNoBeersMatch)
    ∧ (s.filterMode = FilterMode.all → errorTruthy s.error = false → hasAnyFilter s = false →
        emptyMessage s favorites = msgNoBeersAvailable) := by
  refine ⟨?_, ?_, ?_, ?_, ?_⟩
  · intro hmode hfav
    simp [emptyMessage, hmode, hfav]
  · intro hmode hfav
    have hfilters : hasAnyFilter s = true := by
      by_contra hno
      have hno' : hasAnyFilter s = false := by
        cases h : hasAnyFilter s
        · rfl
        · exact absurd h hno
      have hfiltered : filteredBeersOf s favorites = favorites := by
        unfold filteredBeersOf
        rw [filterBeers_no_filter hno']
        simp [sourceBeers, hmode]
      have := displayedBeersV1_eq_nil_iff.mp hempty
      rw [hfiltered] at this
      exact hfav this
    have hlen : favorites.length ≠ 0 := fun h => hfav (List.length_eq_zero.mp h)
    simp [emptyMessage, hmode, hlen, hfilters]
  · intro hmode msg hmsg hne
    have htruthy : errorTruthy s.error = true := by
      simp [errorTruthy, hmsg, hne]
    simp [emptyMessage, hmode, htruthy]
  · intro hmode herr hfilters
    simp [emptyMessage, hmode, herr, hfilters]
  · intro hmode herr hfilters
    simp [emptyMessage, hmode, herr, hfilters]

/-- C5 witness: a concrete empty remote-mode state with an error message
classifies as the failed-to-load message. -/
theorem c5_empty_state_classifier_witness :
    emptyMessage
        ⟨[], false, some "Failed to load beers", 1, FilterMode.all, [],
          ⟨none, none⟩, ⟨SortBy.recommended, SortDirection.asc⟩⟩ []
      = msgFailedToLoad :=
  ((c5_empty_state_classifier
      ⟨[], false, some "Failed to load beers", 1, FilterMode.all, [],
        ⟨none, none⟩, ⟨SortBy.recommended, SortDirection.asc⟩⟩ [] rfl).2.2.1
    rfl "Failed to load beers" rfl (by decide))

/-! ## C10: comparing the two derived pipelines -/

/-- C10 counterexample: with `sortConfig = {recommended, asc}` the async/await
variant sorts by lower-cased name (its comparator's `default` branch) while
the switchMap variant preserves natural order, so the two pipelines disagree
on a two-element list arriving out of name order. -/
theorem c10_counterexample :
    displayedBeersV2
        ⟨[⟨2, "beta".toList, none⟩, ⟨1, "alpha".toList, none⟩], false, none, 1,
          FilterMode.all, [], ⟨none, none⟩, ⟨SortBy.recommended, SortDirection.asc⟩⟩ []
      ≠ displayedBeersV1
        ⟨[⟨2, "beta".toList, none⟩, ⟨1, "alpha".toList, none⟩], false, none, 1,
          FilterMode.all, [], ⟨none, none⟩, ⟨SortBy.recommended, SortDirection.asc⟩⟩ [] := by
  decide

/-- C10 amended: the two variants share the source-selection and filter
stages verbatim (both are `filteredBeersOf` here), and their sort stages — and
hence the displayed lists — agree for every state whose sort key is `name` or
`abv`; they disagree only at the `recommended` key, where the switchMap
variant returns natural order and the async/await variant sorts by name. -/
theorem c10_pipelines_agree_off_recommended (s : StoreState) (favorites : List Beer)
    (h : s.sortConfig.by_ ≠ SortBy.recommended) :
    displayedBeersV2 s favorites = displayedBeersV1 s favorites := by
  unfold displayedBeersV2 displayedBeersV1 sortedBeersV1 sortedBeersV2
  rw [if_neg h]

/-- C10 witness: the agreement theorem applied at a concrete name-sorted
state. -/
theorem c10_pipelines_agree_witness :
    displayedBeersV2
        ⟨[⟨2, "beta".toList, none⟩, ⟨1, "alpha".toList, none⟩], false, none, 1,
          FilterMode.all, [], ⟨none, none⟩, ⟨SortBy.name, SortDirection.asc⟩⟩ []
      = displayedBeersV1
        ⟨[⟨2, "beta".toList, none⟩, ⟨1, "alpha".toList, none⟩], false, none, 1,
          FilterMode.all, [], ⟨none, none⟩, ⟨SortBy.name, SortDirection.asc⟩⟩ [] :=
  c10_pipelines_agree_off_recommended _ [] (by decide)

/-! ## Request construction and the switchMap variant's mutators -/

/-- The `BeerSearchParams` built from current state by `loadBeers`
(`searchTerm() || undefined` makes an empty search term absent). -/
def buildParams (s : StoreState) : BeerSearchParams :=
  { page := s.currentPage
    per_page := 25
    beer_name := if s.searchTerm = [] then none else some s.searchTerm
    abv_gt := s.abvRange.min
    abv_lt := s.abvRange.max }

/-- `loadBeers` of the switchMap variant, viewed as the request it issues:
`none` when in favorites mode (no API call), otherwise the parameters pushed
into the `loadTrigger$` subject. -/
def loadBeers1 (s : StoreState) : Option BeerSearchParams :=
  match s.filterMode with
  | .favorites => none
  | .all => some (buildParams s)

/-- `resetFilters` of the switchMap variant: reset search, range, sort and
page, force `all` mode, then call `loadBeers`. Returns the new state and the
request issued. -/
def resetFilters1 (s : StoreState) : StoreState × Option BeerSearchParams :=
  let s' := { s with searchTerm := ([] : List Char)
                     abvRange := ⟨none, none⟩
                     sortConfig := ⟨SortBy.recommended, SortDirection.asc⟩
                     filterMode := FilterMode.all
                     currentPage := 1 }
  (s', loadBeers1 s')

/-- C6: in every state, `resetFilters()` restores `searchText` to the empty
string, the ABV range to `{null, null}`, the sort spec to its natural
(`recommended`) ascending default and the page to 1, forces remote (`all`)
mode, and triggers `load()` — the issued request carries the defaulted
parameters. -/
theorem c6_resetFilters_restores_defaults (s : StoreState) :
    (resetFilters1 s).1.searchTerm = []
    ∧ (resetFilters1 s).1.abvRange = ⟨none, none⟩
    ∧ (resetFilters1 s).1.sortConfig = ⟨SortBy.recommended, SortDirection.asc⟩
    ∧ (resetFilters1 s).1.currentPage = 1
    ∧ (resetFilters1 s).1.filterMode = FilterMode.all
    ∧ (resetFilters1 s).1.beers = s.beers
    ∧ (resetFilters1 s).2
        = some { page := 1, per_page := 25, beer_name := none,
                 abv_gt := none, abv_lt := none } := by
  refine ⟨rfl, rfl, rfl, rfl, rfl, rfl, ?_⟩
  simp [resetFilters1, loadBeers1, buildParams]

/-! ## The switchMap request pipeline (constructor of the switchMap variant)

`loadTrigger$.pipe(tap start, switchMap(inner), tap stop)`: each trigger sets
`loading = true` and clears the error, and makes its request the current one;
`switchMap` unsubscribes the previous inner request, so a settle event is
applied only when its request id is still current.  Within the current
request: a success emission sets `items` and then reaches the downstream
`tap`, which clears `loading`; an error is caught by `catchError`, which
stores the message and returns `[]` — an observable input that completes
without emitting, so the downstream `tap` never fires and `loading` is left
untouched. -/

structure PipelineState where
  items : List Beer
  loading : Bool
  lastError : Option String
  current : Nat
  deriving DecidableEq

inductive PipelineEvent where
  | trigger (id : Nat)
  | settle (id : Nat) (outcome : Except String (List Beer))

def pipelineStep (s : PipelineState) : PipelineEvent → PipelineState
  | .trigger id => { s with loading := true, lastError := none, current := id }
  | .settle id outcome =>
      if id = s.current then
        match outcome with
        | .ok beers => { s with items := beers, loading := false }
        | .error msg => { s with lastError := some msg }
      else s

def pipelineRun (s : PipelineState) (events : List PipelineEvent) : PipelineState :=
  events.foldl pipelineStep s

/-- C1: if `load()` issues request R1 and then R2 before R1 settles, the final
`items` equals R2's response in both settle orders, and a superseded settle
event — success or error — leaves the whole state (items, loading, lastError)
unchanged. -/
theorem c1_latest_request_wins (s : PipelineState) (r1 r2 : Nat)
    (out1 : Except String (List Beer)) (resp2 : List Beer) (hne : r1 ≠ r2) :
    (pipelineRun s
        [.trigger r1, .trigger r2, .settle r1 out1, .settle r2 (.ok resp2)]).items = resp2
    ∧ (pipelineRun s
        [.trigger r1, .trigger r2, .settle r2 (.ok resp2), .settle r1 out1]).items = resp2
    ∧ (∀ (t : PipelineState) (id : Nat) (outcome : Except String (List Beer)),
        id ≠ t.current → pipelineStep t (.settle id outcome) = t) := by
  refine ⟨?_, ?_, ?_⟩
  · simp [pipelineRun, pipelineStep, hne]
  · simp [pipelineRun, pipelineStep, hne]
  · intro t id outcome hid
    simp [pipelineStep, hid]

/-- C1 witness: the theorem at concrete request ids and payloads. -/
theorem c1_latest_request_wins_witness :
    (pipelineRun ⟨[], false, none, 0⟩
        [.trigger 1, .trigger 2, .settle 1 (.error "boom"),
         .settle 2 (.ok [⟨7, "Buzz".toList, some 4.5⟩])]).items
      = [⟨7, "Buzz".toList, some 4.5⟩] :=
  (c1_latest_request_wins ⟨[], false, none, 0⟩ 1 2 (.error "boom")
    [⟨7, "Buzz".toList, some 4.5⟩] (by decide)).1

/-- C2 (code bug evidence): when the current request settles with an error,
the pipeline stores the message and leaves `items` untouched, but `loading`
remains `true`: the `catchError` branch returns `[]`, which emits nothing, so
the downstream `tap` that would clear `loading` never runs.  The claim (and
the pipeline's own comment) expect `loading = false` here. -/
theorem c2_error_leaves_loading_true (s : PipelineState) (r : Nat) (msg : String) :
    (pipelineRun s [.trigger r, .settle r (.error msg)]).lastError = some msg
    ∧ (pipelineRun s [.trigger r, .settle r (.error msg)]).items = s.items
    ∧ (pipelineRun s [.trigger r, .settle r (.error msg)]).loading = true := by
  refine ⟨?_, ?_, ?_⟩ <;> simp [pipelineRun, pipelineStep]

/-! ## Store operations as state machines (pagination invariant, C7) -/

/-- `loadBeers` of the async/await variant, viewed as the request it issues
(the parameter construction is identical to the switchMap variant's). -/
def loadBeers2 (s : StoreState) : Option BeerSearchParams :=
  match s.filterMode with
  | .favorites => none
  | .all => some (buildParams s)

/-- The named mutators of the switchMap variant, together with the state
writes its request pipeline performs. -/
inductive Store1Op where
  | setSearchTerm (term : List Char)
  | setAbvRange (range : AbvRange)
  | setSortConfig (config : SortConfig)
  | setFilterMode (mode : FilterMode)
  | resetFilters
  | setInitialPage (page : Int)
  | pipeTrigger
  | pipeSuccess (beers : List Beer)
  | pipeError (msg : String)

/-- One switchMap-variant operation: the successor state and the request
issued (if any). -/
def step1 (s : StoreState) : Store1Op → StoreState × Option BeerSearchParams
  | .setSearchTerm term =>
      let s1 := { s with searchTerm := term }
      if s1.filterMode = FilterMode.all then
        let s2 := { s1 with currentPage := 1 }
        (s2, loadBeers1 s2)
      else (s1, none)
  | .setAbvRange range =>
      let s1 := { s with abvRange := range }
      if s1.filterMode = FilterMode.all then
        let s2 := { s1 with currentPage := 1 }
        (s2, loadBeers1 s2)
      else (s1, none)
  | .setSortConfig config => ({ s with sortConfig := config }, none)
  | .setFilterMode mode =>
      let s1 := { s with filterMode := mode }
      if mode = FilterMode.all then (s1, loadBeers1 s1) else (s1, none)
  | .resetFilters => resetFilters1 s
  | .setInitialPage page =>
      if 0 < page then ({ s with currentPage := page }, none)
      else ({ s with currentPage := 1 }, none)
  | .pipeTrigger => ({ s with loading := true, error := none }, none)
  | .pipeSuccess beers => ({ s with beers := beers, loading := false }, none)
  | .pipeError msg => ({ s with error := some msg }, none)

/-- The named mutators of the async/await variant, together with the state
writes of its `loadBeers` body. -/
inductive Store2Op where
  | setSearchTerm (term : List Char)
  | setAbvRange (range : AbvRange)
  | setSortConfig (config : SortConfig)
  | setFilterMode (mode : FilterMode)
  | resetFilters
  | loadNextPage
  | loadPreviousPage
  | loadStart
  | loadSuccess (beers : List Beer)
  | loadError (msg : String)

/-- One async/await-variant operation: the successor state and the request
issued (if any). -/
def step2 (s : StoreState) : Store2Op → StoreState × Option BeerSearchParams
  | .setSearchTerm term =>
      let s1 := { s with searchTerm := term }
      if s1.filterMode = FilterMode.all then
        let s2 := { s1 with currentPage := 1 }
        (s2, loadBeers2 s2)
      else (s1, none)
  | .setAbvRange range =>
      let s1 := { s with abvRange := range }
      if s1.filterMode = FilterMode.all then
        let s2 := { s1 with currentPage := 1 }
        (s2, loadBeers2 s2)
      else (s1, none)
  | .setSortConfig config => ({ s with sortConfig := config }, none)
  | .setFilterMode mode =>
      let s1 := { s with filterMode := mode }
      if mode = FilterMode.all then (s1, loadBeers2 s1) else (s1, none)
  | .resetFilters =>
      let s1 := { s with searchTerm := ([] : List Char)
                         abvRange := ⟨none, none⟩
                         sortConfig := ⟨SortBy.name, SortDirection.asc⟩
                         currentPage := 1 }
      if s1.filterMode = FilterMode.all then (s1, loadBeers2 s1) else (s1, none)
  | .loadNextPage =>
      if s.filterMode = FilterMode.favorites then (s, none)
      else
        let s1 := { s with currentPage := s.currentPage + 1 }
        (s1, loadBeers2 s1)
  | .loadPreviousPage =>
      if s.filterMode = FilterMode.favorites then (s, none)
      else if 1 < s.currentPage then
        let s1 := { s with currentPage := s.currentPage - 1 }
        (s1, loadBeers2 s1)
      else (s, none)
  | .loadStart => ({ s with loading := true, error := none }, none)
  | .loadSuccess beers => ({ s with beers := beers, loading := false }, none)
  | .loadError msg => ({ s with error := some msg, loading := false }, none)

/-- Initial state of the switchMap variant (its signal defaults). -/
def initState1 : StoreState :=
  ⟨[], false, none, 1, FilterMode.all, [], ⟨none, none⟩,
    ⟨SortBy.recommended, SortDirection.asc⟩⟩

/-- Initial state of the async/await variant (its signal defaults). -/
def initState2 : StoreState :=
  ⟨[], false, none, 1, FilterMode.all, [], ⟨none, none⟩,
    ⟨SortBy.name, SortDirection.asc⟩⟩

inductive Reachable1 : StoreState → Prop where
  | init : Reachable1 initState1
  | step (s : StoreState) (op : Store1Op) : Reachable1 s → Reachable1 (step1 s op).1

inductive Reachable2 : StoreState → Prop where
  | init : Reachable2 initState2
  | step (s : StoreState) (op : Store2Op) : Reachable2 s → Reachable2 (step2 s op).1

/-- C7: in every reachable state of either variant the page is at least 1;
`loadPreviousPage` at page 1 changes nothing and issues no request; and in
remote mode with page above 1 it decrements the page by exactly one and
issues a request for the decremented page. -/
theorem c7_page_floor_and_previous_page :
    (∀ s : StoreState, Reachable2 s → 1 ≤ s.currentPage)
    ∧ (∀ s : StoreState, Reachable1 s → 1 ≤ s.currentPage)
    ∧ (∀ s : StoreState, s.currentPage = 1 → step2 s Store2Op.loadPreviousPage = (s, none))
    ∧ (∀ s : StoreState, s.filterMode = FilterMode.all → 1 < s.currentPage →
        step2 s Store2Op.loadPreviousPage
          = ({ s with currentPage := s.currentPage - 1 },
             some (buildParams { s with currentPage := s.currentPage - 1 }))) := by
  refine ⟨?_, ?_, ?_, ?_⟩
  · intro s h
    induction h with
    | init => norm_num [initState2]
    | step s op hs ih =>
        cases op <;>
          dsimp only [step2] <;>
          (repeat' split) <;>
          (try dsimp only) <;>
          omega
  · intro s h
    induction h with
    | init => norm_num [initState1]
    | step s op hs ih =>
        cases op <;>
          dsimp only [step1, resetFilters1] <;>
          (repeat' split) <;>
          (try dsimp only) <;>
          omega
  · intro s hpage
    have hnot : ¬ 1 < s.currentPage := by omega
    simp only [step2]
    rw [if_neg hnot, ite_self]
  · intro s hmode hpage
    have hnotfav : ¬ s.filterMode = FilterMode.favorites := by
      rw [hmode]
      intro h
      cases h
    simp only [step2]
    rw [if_neg hnotfav, if_pos hpage]
    dsimp only [loadBeers2]
    rw [hmode]

/-- C7 witness: the invariant at the initial state and the no-op of
`loadPreviousPage` at page 1. -/
theorem c7_page_floor_witness :
    1 ≤ initState2.currentPage
    ∧ 1 ≤ initState1.currentPage
    ∧ step2 initState2 Store2Op.loadPreviousPage = (initState2, none) :=
  ⟨c7_page_floor_and_previous_page.1 initState2 Reachable2.init,
   c7_page_floor_and_previous_page.2.1 initState1 Reachable1.init,
   c7_page_floor_and_previous_page.2.2.1 initState2 rfl⟩

/-! ## Favorites service (C9) -/

/-- `FavoritesService.isFavorite`: membership of the id in the id list. -/
def favIsFavorite (beerId : Nat) (favorites : List Beer) : Bool :=
  (favorites.map Beer.id).contains beerId

/-- `addFavorite`: a no-op when the id is already present, otherwise append. -/
def addFavorite (beer : Beer) (favorites : List Beer) : List Beer :=
  if favIsFavorite beer.id favorites then favorites
  else favorites ++ [beer]

/-- `removeFavorite`: keep the beers whose id differs. -/
def removeFavorite (beerId : Nat) (favorites : List Beer) : List Beer :=
  favorites.filter fun beer => beer.id ≠ beerId

/-- `toggleFavorite`: remove when present, add when absent. -/
def toggleFavorite (beer : Beer) (favorites : List Beer) : List Beer :=
  if favIsFavorite beer.id favorites then removeFavorite beer.id favorites
  else addFavorite beer favorites

/-- `clearAllFavorites`. -/
def clearAllFavorites (_ : List Beer) : List Beer := []

/-- `loadFavorites`: `none` models a missing, unparsable or shape-invalid
blob (the current collection is left as it is after the storage key is
cleared); `some parsed` models a blob that passed the shape validation
(an array of objects with numeric `id` and string `name`), which replaces
the collection verbatim. -/
def loadFavorites (stored : Option (List Beer)) (favorites : List Beer) : List Beer :=
  match stored with
  | none => favorites
  | some parsed => parsed

/-- The favorites invariant claimed by C9: no two entries share an id. -/
def distinctIds (favorites : List Beer) : Prop :=
  (favorites.map Beer.id).Nodup

theorem favIsFavorite_iff {beer : Beer} {favorites : List Beer} :
    favIsFavorite beer.id favorites = true ↔ beer.id ∈ favorites.map Beer.id := by
  simp [favIsFavorite]

/-- C9 counterexample: `loadFavorites` performs no id-uniqueness check, so a
shape-valid stored blob containing two beers with id 1 replaces the (empty,
hence distinct) collection with one whose ids are not pairwise distinct. -/
theorem c9_load_duplicate_ids_counterexample :
    loadFavorites (some [⟨1, "alpha".toList, none⟩, ⟨1, "beta".toList, none⟩]) []
      = [⟨1, "alpha".toList, none⟩, ⟨1, "beta".toList, none⟩]
    ∧ ¬ distinctIds
        (loadFavorites (some [⟨1, "alpha".toList, none⟩, ⟨1, "beta".toList, none⟩]) []) := by
  constructor
  · rfl
  · intro h
    simp [distinctIds, loadFavorites] at h

/-- C9 amended: every favorites mutation (`add`, `remove`, `toggle`, `clear`)
preserves pairwise-distinct ids, adding an already-favorited id is a no-op
(so adding twice equals adding once), and `loadFavorites` preserves the
invariant provided the stored blob itself has pairwise-distinct ids — the
shape validation does not itself check id uniqueness. -/
theorem c9_favorites_distinct_ids (beer : Beer) (favorites : List Beer)
    (h : distinctIds favorites) :
    distinctIds (addFavorite beer favorites)
    ∧ (favIsFavorite beer.id favorites = true → addFavorite beer favorites = favorites)
    ∧ addFavorite beer (addFavorite beer favorites) = addFavorite beer favorites
    ∧ (∀ i, distinctIds (removeFavorite i favorites))
    ∧ distinctIds (toggleFavorite beer favorites)
    ∧ distinctIds (clearAllFavorites favorites)
    ∧ distinctIds (loadFavorites none favorites)
    ∧ (∀ parsed, distinctIds parsed → distinctIds (loadFavorites (some parsed) favorites)) := by
  have hadd : distinctIds (addFavorite beer favorites) := by
    unfold addFavorite
    by_cases hfav : favIsFavorite beer.id favorites = true
    · rw [if_pos hfav]
      exact h
    · rw [if_neg hfav]
      unfold distinctIds
      rw [List.map_append]
      refine List.Nodup.append h (by simp) ?_
      intro x hx hy
      simp only [List.map_cons, List.map_nil, List.mem_singleton] at hy
      subst hy
      exact hfav (favIsFavorite_iff.mpr hx)
  have hrem : ∀ i, distinctIds (removeFavorite i favorites) := by
    intro i
    unfold distinctIds removeFavorite
    exact ((List.filter_sublist favorites).map Beer.id).nodup h
  refine ⟨hadd, ?_, ?_, hrem, ?_, ?_, ?_, ?_⟩
  · intro hfav
    unfold addFavorite
    rw [if_pos hfav]
  · by_cases hfav : favIsFavorite beer.id favorites = true
    · have h1 : addFavorite beer favorites = favorites := by
        unfold addFavorite
        rw [if_pos hfav]
      rw [h1]
      exact h1
    · have h1 : addFavorite beer favorites = favorites ++ [beer] := by
        unfold addFavorite
        rw [if_neg hfav]
      have h2 : favIsFavorite beer.id (favorites ++ [beer]) = true := by
        simp [favIsFavorite]
      rw [h1]
      unfold addFavorite
      rw [if_pos h2]
  · unfold toggleFavorite
    by_cases hfav : favIsFavorite beer.id favorites = true
    · rw [if_pos hfav]
      exact hrem beer.id
    · rw [if_neg hfav]
      exact hadd
  · exact List.nodup_nil
  · exact h
  · intro parsed hp
    exact hp

/-- C9 witness: adding id 1 twice to an empty collection keeps one entry. -/
theorem c9_favorites_distinct_ids_witness :
    distinctIds (addFavorite ⟨1, "Buzz".toList, some 4.5⟩ [])
    ∧ addFavorite ⟨1, "Buzz".toList, some 4.5⟩
        (addFavorite ⟨1, "Buzz".toList, some 4.5⟩ [])
      = addFavorite ⟨1, "Buzz".toList, some 4.5⟩ [] :=
  ⟨(c9_favorites_distinct_ids ⟨1, "Buzz".toList, some 4.5⟩ [] (by simp [distinctIds])).1,
   (c9_favorites_distinct_ids ⟨1, "Buzz".toList, some 4.5⟩ [] (by simp [distinctIds])).2.2.1⟩

/-! ## Gateway retry policy (C8, `BeerApiService.retryWithBackoff`) -/

/-- The backoff delay before retry attempt `retryCount` (1-based):
`retryDelay * 2 ^ (retryCount - 1)` with a 1000 ms base. -/
def retryDelayMs (retryCount : Nat) : Nat := 1000 * 2 ^ (retryCount - 1)

/-- The non-retry guard: client errors (4xx), rate limits included. -/
def isClientError (status : Nat) : Bool := decide (400 ≤ status) && decide (status < 500)

/-- One run of the RxJS `retry({count, delay})` loop: `outcome i` is the
result of the `i`-th attempt (0-based); at most `remaining` retries are
left; returns the final result together with the list of backoff delays
actually slept. A 4xx error is rethrown by the delay callback (no retry);
other errors wait `retryDelayMs` and resubscribe. -/
def runRetry {α : Type _} (outcome : Nat → Except Nat α) :
    Nat → Nat → Except Nat α × List Nat
  | attempt, remaining =>
      match outcome attempt with
      | .ok a => (.ok a, [])
      | .error status =>
          match remaining with
          | 0 => (.error status, [])
          | remaining' + 1 =>
              if isClientError status then (.error status, [])
              else
                let rest := runRetry outcome (attempt + 1) remaining'
                (rest.1, retryDelayMs (attempt + 1) :: rest.2)

/-- `retryWithBackoff` with the service's `maxRetries = 3`. -/
def retryWithBackoff {α : Type _} (outcome : Nat → Except Nat α) : Except Nat α × List Nat :=
  runRetry outcome 0 3

/-- C8: the retry policy never retries after a 4xx failure (including 429) —
the request fails immediately with no backoff — while on persistent network
(status 0) or 5xx failures it retries three times with doubling delays of
1000 ms, 2000 ms and 4000 ms before surfacing the error; a transient failure
that succeeds on the first retry sleeps only the 1000 ms delay. -/
theorem c8_retry_policy (outcome : Nat → Except Nat (List Beer)) (status : Nat) :
    (outcome 0 = .error status → 400 ≤ status → status < 500 →
        retryWithBackoff outcome = (.error status, []))
    ∧ ((∀ i, outcome i = .error status) → (status = 0 ∨ (500 ≤ status ∧ status ≤ 599)) →
        retryWithBackoff outcome = (.error status, [1000, 2000, 4000]))
    ∧ (∀ beers : List Beer, outcome 0 = .error status → outcome 1 = .ok beers →
        (status = 0 ∨ (500 ≤ status ∧ status ≤ 599)) →
        retryWithBackoff outcome = (.ok beers, [1000])) := by
  refine ⟨?_, ?_, ?_⟩
  · intro h0 h4 h5
    have hclient : isClientError status = true := by
      simp [isClientError, h4, h5]
    unfold retryWithBackoff runRetry
    rw [h0]
    simp [hclient]
  · intro hall hstatus
    have hclient : isClientError status = false := by
      rcases hstatus with h | h <;> simp [isClientError] <;> omega
    unfold retryWithBackoff
    unfold runRetry
    rw [hall 0]
    simp only [hclient, Bool.false_eq_true, if_false, ite_false]
    unfold runRetry
    rw [hall 1]
    simp only [hclient, Bool.false_eq_true, if_false, ite_false]
    unfold runRetry
    rw [hall 2]
    simp only [hclient, Bool.false_eq_true, if_false, ite_false]
    unfold runRetry
    rw [hall 3]
    simp [retryDelayMs]
  · intro beers h0 h1 hstatus
    have hclient : isClientError status = false := by
      rcases hstatus with h | h <;> simp [isClientError] <;> omega
    unfold retryWithBackoff
    unfold runRetry
    rw [h0]
    simp only [hclient, Bool.false_eq_true, if_false, ite_false]
    unfold runRetry
    rw [h1]
    simp [retryDelayMs]

/-- C8 witness: a request failing with 429 is not retried; one failing with
500 on every attempt sleeps 1000, 2000 and 4000 ms. -/
theorem c8_retry_policy_witness :
    retryWithBackoff (fun _ => (.error 429 : Except Nat (List Beer))) = (.error 429, [])
    ∧ retryWithBackoff (fun _ => (.error 500 : Except Nat (List Beer)))
        = (.error 500, [1000, 2000, 4000]) :=
  ⟨(c8_retry_policy (fun _ => .error 429) 429).1 rfl (by norm_num) (by norm_num),
   (c8_retry_policy (fun _ => .error 500) 500).2.1 (fun _ => rfl) (by norm_num)⟩

end BeerCatalog
